import Mathlib

/-!
Shallow embedding of the text-to-sql repository (sahajkedia/text-to-sql) for
verification of its natural-language specification.

Source files embedded:
- `src/sql_engine.py` — the `TextToSQL` engine, its module-level `_engine_cache`
  and `get_engine`, and `get_training_data_count`;
- `src/database.py` — `execute_query`, `get_schema_ddl`, `test_connection`;
- `src/config.py` — `POSTGRES_CONFIG` and `validate_config`;
- `src/train.py` — `train_examples` and the `main` dispatch order;
- `src/app.py` — the set of functions the request-serving app invokes.

Python `Optional[str]` values are modelled as `Option String`; Python string
truthiness (`None` and `""` are falsy) as `truthy`; raised exceptions as
`Except`; referential identity of Python objects as a numeric identity `eid`
stamped at construction time (each run of the constructor yields a fresh id).
-/

namespace TextToSqlModel

/-- Python truthiness of an `Optional[str]`: `None` and `""` are falsy,
every other string is truthy. -/
def truthy : Option String → Bool
  | none => false
  | some s => !(s == "")

/-! ## Engine registry — `src/sql_engine.py` lines 25–79 -/

/-- Model of a constructed `TextToSQL` object (sql_engine.py line 25).
`eid` models Python referential identity: every run of `TextToSQL.__init__`
yields an object with a fresh `eid`, so two objects are referentially the
same instance iff their `eid`s are equal.  `effective_key` records the
`effective_key = api_key or OPENAI_API_KEY` computed at line 43. -/
structure Engine where
  eid : Nat
  effective_key : Option String
deriving DecidableEq

/-- Process state of the module-level `_engine_cache` dictionary
(sql_engine.py line 72) together with the next fresh object identity. -/
structure EngineState where
  cache : List (String × Engine)
  next : Nat
deriving DecidableEq

/-- The empty `_engine_cache = {}` at module load (sql_engine.py line 72). -/
def initialEngineState : EngineState := ⟨[], 0⟩

/-- Dictionary lookup in the cache: `cache_key in _engine_cache` /
`_engine_cache[cache_key]`. -/
def lookupEngine : List (String × Engine) → String → Option Engine
  | [], _ => none
  | (k, e) :: rest, key => if k = key then some e else lookupEngine rest key

/-- The cache key `api_key or "default"` (sql_engine.py line 76): a falsy
`api_key` (absent, `None`, or `""`) normalizes to the sentinel `"default"`. -/
def cacheKey (apiKey : Option String) : String :=
  match apiKey with
  | none => "default"
  | some s => if s = "" then "default" else s

/-- The `effective_key = api_key or OPENAI_API_KEY` computation inside
`TextToSQL.__init__` (sql_engine.py line 43); `envKey` is the process-wide
`OPENAI_API_KEY` read from the environment (config.py line 10). -/
def effectiveKey (envKey apiKey : Option String) : Option String :=
  if truthy apiKey then apiKey else envKey

/-- Model of a successful run of `TextToSQL.__init__` (sql_engine.py
lines 26–50): it produces a fresh object (fresh `eid`) whose LLM client is
configured with the effective key. -/
def mkEngine (st : EngineState) (envKey apiKey : Option String) : Engine :=
  { eid := st.next, effective_key := effectiveKey envKey apiKey }

/-- Model of `get_engine` (sql_engine.py lines 75–79).  `constructOk` models
whether the run of `TextToSQL.__init__` performed on a cache miss succeeds
(the constructor does I/O: directory creation, embedding-model load, store
open) — when it raises, the assignment `_engine_cache[cache_key] = …` never
happens, so the state is returned unchanged and the error propagates. -/
def get_engine (envKey : Option String) (st : EngineState) (apiKey : Option String)
    (constructOk : Bool) : EngineState × Except Unit Engine :=
  let key := cacheKey apiKey
  match lookupEngine st.cache key with
  | some e => (st, .ok e)
  | none =>
      if constructOk then
        let e := mkEngine st envKey apiKey
        (⟨(key, e) :: st.cache, st.next + 1⟩, .ok e)
      else (st, .error ())

/-- Well-formedness of the registry state: every cached engine's identity is
below the next fresh identity, and cached identities are pairwise distinct.
This holds for the initial state and is preserved by `get_engine`. -/
def stateWF (st : EngineState) : Prop :=
  (∀ p ∈ st.cache, p.2.eid < st.next) ∧
    (st.cache.map (fun p => p.2.eid)).Nodup

/-! ## Training-data counts — `src/sql_engine.py` lines 52–69 -/

/-- Model of the chromadb persistent client visible to
`get_training_data_count`: the collections that currently exist, each with
its entry count.  `get_collection(name)` raises when `name` is absent
(collections are created lazily on first insert). -/
structure ChromaStore where
  collections : List (String × Nat)
deriving DecidableEq

/-- Lookup of `self._chroma_client.get_collection(name)`: `some count` when
the collection exists, `none` when `get_collection` raises. -/
def get_collection : List (String × Nat) → String → Option Nat
  | [], _ => none
  | (k, n) :: rest, name => if k = name then some n else get_collection rest name

/-- Result shape of `get_training_data_count` (sql_engine.py line 53): a dict
with keys `"ddl"`, `"documentation"`, `"questions"` (the spec calls the third
collection `sql_examples`; in the code the backing collection is named
`"sql"` and the reported key `"questions"`). -/
structure TrainingCounts where
  ddl : Nat
  documentation : Nat
  questions : Nat
deriving DecidableEq

/-- Model of `get_training_data_count` (sql_engine.py lines 52–69): each count
starts at 0 and is overwritten with the collection's count when
`get_collection` succeeds; the `try/except: pass` blocks mean a missing
collection leaves the count at 0 and raises nothing. -/
def get_training_data_count (store : ChromaStore) : TrainingCounts :=
  { ddl := (get_collection store.collections "ddl").getD 0,
    documentation := (get_collection store.collections "documentation").getD 0,
    questions := (get_collection store.collections "sql").getD 0 }

/-! ## Query execution — `src/database.py` -/

/-- A row as produced by `dict_row`: an association of column names to scalar
values (scalars kept abstract as strings). -/
abbrev Row := List (String × String)

/-- A database error (psycopg exception), carrying its message. -/
structure PGError where
  msg : String
deriving DecidableEq

/-- Outcome of `cur.execute(sql)` on an established connection:
`description` is the column-descriptor list (`None` for statements that
produce no result set, e.g. DDL/DML without RETURNING), `rows` the produced
tuples. -/
structure ResultSet where
  description : Option (List String)
  rows : List Row
deriving DecidableEq

/-- Behaviour of the connected database: what each statement's execution
yields (an error, or a result set). -/
abbrev DBBehavior := String → Except PGError ResultSet

/-- Message of the psycopg `ProgrammingError` raised by the fetch methods
when the last operation produced no result set. -/
def noResultMsg : String := "the last operation didn't produce a result"

/-- Model of `cur.fetchall()` (psycopg driver semantics): returns the rows of
the current result set, and raises `ProgrammingError` when the previous
`execute` produced no result set (exactly when `cur.description` is `None`). -/
def fetchall (rs : ResultSet) : Except PGError (List Row) :=
  match rs.description with
  | none => .error ⟨noResultMsg⟩
  | some _ => .ok rs.rows

/-- Model of `execute_query` (database.py lines 22–28) on a connection
attempt `conn` (`get_connection` may itself fail).  The first component is
the trace of statements actually executed against the database — used to
state that a statement is executed exactly once and never retried.  Line 26
computes `columns` from `cur.description` (empty when there is no
descriptor); line 27 then calls `cur.fetchall()`. -/
def execute_query (conn : Except PGError DBBehavior) (sql : String) :
    List String × Except PGError (List Row × List String) :=
  match conn with
  | .error e => ([], .error e)
  | .ok db =>
      match db sql with
      | .error e => ([sql], .error e)
      | .ok rs =>
          let columns := rs.description.getD []
          match fetchall rs with
          | .error e => ([sql], .error e)
          | .ok rows => ([sql], .ok (rows, columns))

/-- Model of `test_connection` (database.py lines 78–85), body inside the
`try`: connect, then run `SELECT 1`, then return `True`. -/
def test_connection_body (conn : Except PGError DBBehavior) : Except PGError Bool :=
  match conn with
  | .error e => .error e
  | .ok db =>
      match db "SELECT 1" with
      | .error e => .error e
      | .ok _ => .ok true

/-- Model of `test_connection` (database.py lines 78–85): the
`except Exception: return False` handler turns every failure of the body
into `false`, so the function is total and never propagates an error. -/
def test_connection (conn : Except PGError DBBehavior) : Bool :=
  match test_connection_body conn with
  | .ok b => b
  | .error _ => false

/-! ## Schema DDL synthesis — `src/database.py` lines 31–61

The function runs one SQL query against `information_schema`; the embedding
translates that query's declarative meaning over a model of the catalog.
The inner subquery joins `information_schema.columns` with
`information_schema.tables` on (name, schema), keeps base tables outside the
system schemas, and orders rows by (schema, table, ordinal_position); the
outer query groups by (schema, table) and aggregates each group's column
fragments with `string_agg(…, ', ')` in the subquery's order — within one
group that order is exactly increasing `ordinal_position`.  The outer query
has no `ORDER BY`, so the order of the produced statements is unspecified;
the embedding emits groups keyed by the distinct (schema, table) pairs of
the joined rows. -/

/-- A row of `information_schema.columns` as selected by the query
(database.py lines 41–47). -/
structure ColumnInfo where
  table_schema : String
  table_name : String
  column_name : String
  data_type : String
  is_nullable : String
  ordinal_position : Nat
deriving DecidableEq

/-- A row of `information_schema.tables` as used by the join
(database.py lines 49–52). -/
structure TableInfo where
  table_schema : String
  table_name : String
  table_type : String
deriving DecidableEq

/-- Grouping key of a column row: `(schemaname, tablename)`. -/
def colKey (c : ColumnInfo) : String × String := (c.table_schema, c.table_name)

/-- Key of a table row, for the join condition. -/
def tblKey (t : TableInfo) : String × String := (t.table_schema, t.table_name)

/-- The schema exclusion `c.table_schema NOT IN ('pg_catalog',
'information_schema')` (database.py line 53). -/
def isSystemSchema (s : String) : Bool :=
  s = "pg_catalog" || s = "information_schema"

/-- Join/filter condition for one column row against one table row:
`c.table_name = t.table_name AND c.table_schema = t.table_schema` with
`t.table_type = 'BASE TABLE'` (database.py lines 50–52). -/
def matchesBase (c : ColumnInfo) (t : TableInfo) : Bool :=
  (c.table_name = t.table_name) && (c.table_schema = t.table_schema) &&
    (t.table_type = "BASE TABLE")

/-- The subquery's row multiset (database.py lines 40–55): each column row is
emitted once per matching base-table row (SQL inner-join multiplicity), and
rows of system schemas are excluded. -/
def subqueryRows (tables : List TableInfo) (cols : List ColumnInfo) : List ColumnInfo :=
  cols.flatMap fun c =>
    if isSystemSchema c.table_schema then []
    else (tables.filter (matchesBase c)).map fun _ => c

/-- The distinct `GROUP BY schemaname, tablename` keys (database.py line 56)
present among the joined rows. -/
def ddlKeys (tables : List TableInfo) (cols : List ColumnInfo) : List (String × String) :=
  ((subqueryRows tables cols).map colKey).dedup

/-- Ordered insertion by `ordinal_position`, used to realize the
`ORDER BY … c.ordinal_position` (database.py line 54) within one group. -/
def insertCol (c : ColumnInfo) : List ColumnInfo → List ColumnInfo
  | [] => [c]
  | d :: ds =>
      if c.ordinal_position ≤ d.ordinal_position then c :: d :: ds
      else d :: insertCol c ds

/-- Sort a group's column rows by `ordinal_position`. -/
def sortCols : List ColumnInfo → List ColumnInfo
  | [] => []
  | c :: cs => insertCol c (sortCols cs)

/-- Comparison of two column rows by declared ordinal position. -/
def ordinalLe (a b : ColumnInfo) : Prop :=
  a.ordinal_position ≤ b.ordinal_position

/-- The rows of one `GROUP BY` group, in aggregation order: the joined rows
with that key, ordered by `ordinal_position`. -/
def groupCols (tables : List TableInfo) (cols : List ColumnInfo)
    (k : String × String) : List ColumnInfo :=
  sortCols ((subqueryRows tables cols).filter fun c => decide (colKey c = k))

/-- One aggregated column fragment: `column_name || ' ' || data_type ||
CASE WHEN is_nullable = 'NO' THEN ' NOT NULL' ELSE '' END`
(database.py lines 36–37). -/
def renderCol (c : ColumnInfo) : String :=
  c.column_name ++ " " ++ c.data_type ++
    (if c.is_nullable = "NO" then " NOT NULL" else "")

/-- One output row of the query: `'CREATE TABLE ' || schemaname || '.' ||
tablename || ' (' || string_agg(…, ', ') || ');'` (database.py lines 34–39). -/
def tableDDL (tables : List TableInfo) (cols : List ColumnInfo)
    (k : String × String) : String :=
  "CREATE TABLE " ++ k.1 ++ "." ++ k.2 ++ " (" ++
    String.intercalate ", " ((groupCols tables cols k).map renderCol) ++ ");"

/-- Model of `get_schema_ddl` (database.py lines 31–61): the list of
synthesized statements, one per group key. -/
def get_schema_ddl (tables : List TableInfo) (cols : List ColumnInfo) : List String :=
  (ddlKeys tables cols).map (tableDDL tables cols)

/-! ## Configuration — `src/config.py` -/

/-- The `POSTGRES_CONFIG` dict (config.py lines 15–21).  `host` and `port`
always carry defaults; `database`, `user` and `password` are `os.getenv`
results, `none` when the variable is unset. -/
structure PGConfig where
  host : String
  port : Nat
  database : Option String
  user : Option String
  password : Option String
deriving DecidableEq

/-- Model of `validate_config` (config.py lines 29–36): collect the missing
required settings in order (database first, then user) and raise a
`ValueError` naming them when the list is nonempty. -/
def validate_config (cfg : PGConfig) : Except String Unit :=
  let missing :=
    (if truthy cfg.database then [] else ["POSTGRES_DATABASE"]) ++
      (if truthy cfg.user then [] else ["POSTGRES_USER"])
  match missing with
  | [] => .ok ()
  | ms => .error ("Missing required configuration: " ++ String.intercalate ", " ms)

/-! ## Training ingestion — `src/train.py` -/

/-- One element of the JSON array read by `train_examples`: the values of
`example.get("question")` and `example.get("sql")` (`none` when the field is
missing). -/
structure ExampleRec where
  question : Option String
  sql : Option String
deriving DecidableEq

/-- Model of the loop of `train_examples` (train.py lines 54–59): the
(question, sql) pairs passed to `engine.train`, in order.  A pair is trained
exactly when `if question and sql:` holds (both fields present and
non-empty); otherwise the iteration does nothing and the loop continues with
the remaining examples. -/
def train_examples : List ExampleRec → List (String × String)
  | [] => []
  | e :: rest =>
      if truthy e.question && truthy e.sql then
        (e.question.getD "", e.sql.getD "") :: train_examples rest
      else train_examples rest

/-! ## Which code paths invoke `validate_config`

Static call structure, read off the two entry points. -/

/-- Functions invoked (transitively) by the request-serving app's `main`
(app.py lines 337–596): session-state setup, the connectivity check, the
sidebar (engine lookup, training counts, table list), and on submit
`process_question` (engine lookup, SQL generation, query execution).
`validate_config` appears nowhere in app.py. -/
def app_request_calls : List String :=
  ["init_session_state", "check_connection", "test_connection",
   "render_sidebar", "get_engine", "get_training_data_count",
   "get_table_names", "process_question", "generate_sql", "execute_query"]

/-- Call order of the training CLI's `main` (train.py lines 73–115) once a
command is given: `validate_config()` runs first (line 95), then the chosen
command's handler is dispatched; with no command only the help text is
printed. -/
def train_main_calls : Option String → List String
  | none => ["print_help"]
  | some cmd =>
      "validate_config" ::
        (if cmd = "ddl" then ["train_ddl"]
         else if cmd = "docs" then ["train_documentation"]
         else if cmd = "examples" then ["train_examples"]
         else if cmd = "stats" then ["show_stats"]
         else [])

/-! ## Theorems -/

/-- C2: for an empty, freshly-created store, `training_data_count()` reports
0 for each of the three collections, and for every collection that does not
yet exist the reported count is 0 (the `try/except` makes the function total:
no error is raised). -/
theorem get_training_data_count_correct (store : ChromaStore) :
    get_training_data_count ⟨[]⟩ = ⟨0, 0, 0⟩ ∧
    (get_collection store.collections "ddl" = none →
      (get_training_data_count store).ddl = 0) ∧
    (get_collection store.collections "documentation" = none →
      (get_training_data_count store).documentation = 0) ∧
    (get_collection store.collections "sql" = none →
      (get_training_data_count store).questions = 0) := by
  refine ⟨rfl, ?_, ?_, ?_⟩ <;>
    intro h <;> simp [get_training_data_count, h]

/-- Witness for C2: a store holding only a `ddl` collection reports 0 for the
other two collections, and the empty store reports all zeros. -/
theorem get_training_data_count_correct_witness :
    get_training_data_count ⟨[]⟩ = ⟨0, 0, 0⟩ ∧
    (get_training_data_count ⟨[("ddl", 3)]⟩).documentation = 0 ∧
    (get_training_data_count ⟨[("ddl", 3)]⟩).questions = 0 := by
  refine ⟨(get_training_data_count_correct ⟨[]⟩).1, ?_, ?_⟩
  · exact (get_training_data_count_correct ⟨[("ddl", 3)]⟩).2.2.1 rfl
  · exact (get_training_data_count_correct ⟨[("ddl", 3)]⟩).2.2.2 rfl

/-- C3: when the key is not cached and engine construction fails, the error
propagates, the registry state is returned unchanged (no entry is cached for
the key), and a later call for the same key attempts construction again and
succeeds when construction succeeds. -/
theorem get_engine_failure_correct (envKey : Option String) (st : EngineState)
    (apiKey : Option String)
    (hmiss : lookupEngine st.cache (cacheKey apiKey) = none) :
    get_engine envKey st apiKey false = (st, .error ()) ∧
    ∃ e, get_engine envKey st apiKey true =
      (⟨(cacheKey apiKey, e) :: st.cache, st.next + 1⟩, .ok e) := by
  refine ⟨?_, mkEngine st envKey apiKey, ?_⟩ <;>
    simp [get_engine, hmiss]

/-- Witness for C3: from the empty registry, constructing for key `"k"`
fails without caching anything, and the retry succeeds. -/
theorem get_engine_failure_correct_witness :
    get_engine none initialEngineState (some "k") false
      = (initialEngineState, .error ()) ∧
    ∃ e, get_engine none initialEngineState (some "k") true
      = (⟨[("k", e)], 1⟩, .ok e) :=
  get_engine_failure_correct none initialEngineState (some "k") rfl

/-- C4 (code bug): a statement that produces no result set (column
descriptor `None`, e.g. a bare `CREATE TABLE`) makes `execute_query` raise
the driver's `ProgrammingError` from `cur.fetchall()` instead of returning
empty columns and empty rows — the `if cur.description else []` guard on
line 26 is defeated by the unconditional `fetchall` on line 27. -/
theorem execute_query_no_result_bug :
    execute_query (.ok fun _ => .ok ⟨none, []⟩) "CREATE TABLE t (x int)"
      = (["CREATE TABLE t (x int)"], .error ⟨noResultMsg⟩) := rfl

/-- C5: when the database rejects the statement (syntax error, permission
denial, missing table, …), `execute_query` fails with exactly the underlying
database error (propagated verbatim — the spec's `QueryExecutionError`),
returns no rows, and the trace shows the statement was executed exactly once
(never retried). -/
theorem execute_query_error_correct (db : DBBehavior) (sql : String) (e : PGError)
    (h : db sql = .error e) :
    execute_query (.ok db) sql = ([sql], .error e) := by
  simp [execute_query, h]

/-- Witness for C5: a database rejecting `SELECT * FROM no_such_table_xyz`
with an undefined-table error makes `execute_query` fail with that error
after a single execution attempt. -/
theorem execute_query_error_correct_witness :
    execute_query
        (.ok fun _ => .error ⟨"relation no_such_table_xyz does not exist"⟩)
        "SELECT * FROM no_such_table_xyz"
      = (["SELECT * FROM no_such_table_xyz"],
          .error ⟨"relation no_such_table_xyz does not exist"⟩) :=
  execute_query_error_correct _ _ _ rfl

/-- C6: `test_connection` is a total boolean function (the `except` handler
means no outcome propagates an error), and it returns `true` exactly when
the connection is established and the trivial statement `SELECT 1` executes
successfully; every failure — including an unreachable database — yields
`false`. -/
theorem test_connection_correct (conn : Except PGError DBBehavior) :
    test_connection conn = true ↔
      ∃ db, conn = .ok db ∧ (db "SELECT 1").isOk = true := by
  cases conn with
  | error e => simp [test_connection, test_connection_body]
  | ok db =>
      cases h : db "SELECT 1" with
      | error e =>
          simp [test_connection, test_connection_body, h, Except.bind,
            Except.isOk, Except.toBool]
      | ok rs =>
          simp [test_connection, test_connection_body, h, Except.bind,
            Except.isOk, Except.toBool]

/-- C8: the trained pairs are exactly those examples whose `question` and
`sql` fields are both present and non-empty, in input order; an example
missing either field is skipped and the remaining examples are still
processed (the batch is not aborted). -/
theorem train_examples_correct (examples : List ExampleRec) :
    train_examples examples
      = (examples.filter fun e => truthy e.question && truthy e.sql).map
          (fun e => (e.question.getD "", e.sql.getD "")) ∧
    (∀ e rest, (truthy e.question && truthy e.sql) = false →
      train_examples (e :: rest) = train_examples rest) := by
  constructor
  · induction examples with
    | nil => rfl
    | cons e rest ih =>
        by_cases h : (truthy e.question && truthy e.sql) = true
        · simp [train_examples, h, ih]
        · simp [train_examples, h, ih]
  · intro e rest h
    simp [train_examples, h]

/-- Witness for C8: a batch with a missing-`question` example and an
empty-`sql` example trains exactly the two complete pairs, and skipping the
bad head of a batch leaves the tail fully processed. -/
theorem train_examples_correct_witness :
    train_examples
        [⟨some "q1", some "s1"⟩, ⟨none, some "s2"⟩, ⟨some "q3", some ""⟩,
          ⟨some "q4", some "s4"⟩]
      = [("q1", "s1"), ("q4", "s4")] ∧
    train_examples [⟨none, some "s2"⟩, ⟨some "q4", some "s4"⟩]
      = train_examples [⟨some "q4", some "s4"⟩] := by
  constructor
  · rw [(train_examples_correct _).1]
    rfl
  · exact (train_examples_correct []).2 ⟨none, some "s2"⟩ [⟨some "q4", some "s4"⟩]
      (by rfl)

/-- C9 counterexample: the claim's final clause fails on the code — the
request-serving app (`app.py`) never invokes `validate_config` at all, yet
it serves question requests (`process_question`); the check is only
performed by the training CLI. -/
theorem validate_config_cex :
    "validate_config" ∉ app_request_calls ∧
      "process_question" ∈ app_request_calls := by
  constructor
  · decide
  · decide

/-- C9 (amended): `validate_config` raises exactly when the database name or
the user is unset or empty; it is insensitive to host, port and password;
and the training CLI invokes it before dispatching any training command. -/
theorem validate_config_correct (cfg : PGConfig) :
    ((validate_config cfg).isOk = false ↔
      (truthy cfg.database = false ∨ truthy cfg.user = false)) ∧
    (∀ h h' p p' w w',
      validate_config ⟨h, p, cfg.database, cfg.user, w⟩
        = validate_config ⟨h', p', cfg.database, cfg.user, w'⟩) ∧
    (∀ cmd, (train_main_calls (some cmd)).head? = some "validate_config") := by
  refine ⟨?_, fun _ _ _ _ _ _ => rfl, fun _ => rfl⟩
  cases hd : truthy cfg.database <;> cases hu : truthy cfg.user <;>
    simp [validate_config, hd, hu, Except.isOk, Except.toBool]

/-- A successful cache lookup returns an entry of the cache list. -/
theorem lookupEngine_mem {c : List (String × Engine)} {k : String} {e : Engine}
    (h : lookupEngine c k = some e) : (k, e) ∈ c := by
  induction c with
  | nil => simp [lookupEngine] at h
  | cons p rest ih =>
      obtain ⟨k', e'⟩ := p
      by_cases hk : k' = k
      · subst hk
        simp [lookupEngine] at h
        subst h
        exact List.mem_cons_self _ _
      · rw [lookupEngine, if_neg hk] at h
        exact List.mem_cons_of_mem _ (ih h)

/-- The initial registry state is well formed. -/
theorem initialEngineState_WF : stateWF initialEngineState := by
  constructor
  · intro p hp
    simp [initialEngineState] at hp
  · simp [initialEngineState]

/-- C10: the falsy credential arguments `None` and `""` (and the default
argument, which is `None`) normalize to the sentinel key `"default"`:
starting from any state with no engine cached under the sentinel, the first
falsy call constructs the engine, every further falsy call — with either
spelling, and without re-running the constructor — returns referentially the
same instance, and that instance's effective credential is the
process-configured `OPENAI_API_KEY`. -/
theorem get_engine_falsy_correct (envKey : Option String) (st : EngineState)
    (hmiss : lookupEngine st.cache "default" = none) :
    ∃ st' e,
      get_engine envKey st none true = (st', .ok e) ∧
      (∀ b, get_engine envKey st' (some "") b = (st', .ok e)) ∧
      (∀ b, get_engine envKey st' none b = (st', .ok e)) ∧
      e.effective_key = envKey := by
  refine ⟨⟨("default", mkEngine st envKey none) :: st.cache, st.next + 1⟩,
    mkEngine st envKey none, ?_, ?_, ?_, rfl⟩
  · simp [get_engine, cacheKey, hmiss]
  · intro b
    simp [get_engine, cacheKey, lookupEngine]
  · intro b
    simp [get_engine, cacheKey, lookupEngine]

/-- Witness for C10: from the empty registry with `OPENAI_API_KEY` set to
`"env-key"`, the three falsy call spellings return one shared engine whose
effective credential is `"env-key"`. -/
theorem get_engine_falsy_correct_witness :
    ∃ st' e,
      get_engine (some "env-key") initialEngineState none true = (st', .ok e) ∧
      (∀ b, get_engine (some "env-key") st' (some "") b = (st', .ok e)) ∧
      (∀ b, get_engine (some "env-key") st' none b = (st', .ok e)) ∧
      e.effective_key = some "env-key" :=
  get_engine_falsy_correct (some "env-key") initialEngineState rfl

/-- C1 counterexample: `None` and `""` are two distinct credential keys, yet
`get_engine` returns referentially the same engine for both (they normalize
to the same sentinel cache key), refuting the claim's distinct-keys clause. -/
theorem get_engine_distinct_keys_cex :
    ((none : Option String) ≠ some "") ∧
    (get_engine none ((get_engine none initialEngineState none true).1)
        (some "") true).2
      = (get_engine none initialEngineState none true).2 := by
  constructor
  · intro h
    cases h
  · rfl

/-- C1 (amended): calling `get_engine` twice with the same key returns
referentially the same engine both times, and two keys with distinct
normalized cache keys (`api_key or "default"`) yield two distinct engine
instances; keys with equal normalized cache keys (e.g. `None` and `""`)
share one instance. -/
theorem get_engine_cache_correct (envKey k1 k2 : Option String)
    (st st1 st2 : EngineState) (e1 e2 : Engine)
    (hwf : stateWF st)
    (h1 : get_engine envKey st k1 true = (st1, .ok e1))
    (h2 : get_engine envKey st1 k2 true = (st2, .ok e2)) :
    (cacheKey k1 = cacheKey k2 → e1 = e2) ∧
    (cacheKey k1 ≠ cacheKey k2 → e1 ≠ e2) := by
  obtain ⟨hlt, hnd⟩ := hwf
  cases hl1 : lookupEngine st.cache (cacheKey k1) with
  | some e =>
      rw [get_engine] at h1
      rw [hl1] at h1
      simp at h1
      obtain ⟨rfl, rfl⟩ := h1
      cases hl2 : lookupEngine st.cache (cacheKey k2) with
      | some e' =>
          rw [get_engine] at h2
          rw [hl2] at h2
          simp at h2
          obtain ⟨rfl, rfl⟩ := h2
          constructor
          · intro hk
            rw [hk] at hl1
            rw [hl1] at hl2
            injection hl2
          · intro hk heq
            have m1 := lookupEngine_mem hl1
            have m2 := lookupEngine_mem hl2
            have := List.inj_on_of_nodup_map hnd m1 m2 (by rw [heq])
            exact hk (congrArg Prod.fst this)
      | none =>
          rw [get_engine] at h2
          rw [hl2] at h2
          simp at h2
          obtain ⟨rfl, rfl⟩ := h2
          constructor
          · intro hk
            rw [hk] at hl1
            rw [hl1] at hl2
            injection hl2
          · intro _ heq
            have m1 := lookupEngine_mem hl1
            have hbound : e.eid < st.next := hlt _ m1
            have heid : e.eid = st.next := congrArg Engine.eid heq
            omega
  | none =>
      rw [get_engine] at h1
      rw [hl1] at h1
      simp at h1
      obtain ⟨rfl, rfl⟩ := h1
      by_cases hk : cacheKey k1 = cacheKey k2
      · rw [get_engine] at h2
        rw [show lookupEngine ((cacheKey k1, mkEngine st envKey k1) :: st.cache)
              (cacheKey k2) = some (mkEngine st envKey k1) by
            rw [lookupEngine, if_pos hk]] at h2
        simp at h2
        obtain ⟨rfl, rfl⟩ := h2
        exact ⟨fun _ => rfl, fun hne => absurd hk hne⟩
      · cases hl2 : lookupEngine st.cache (cacheKey k2) with
        | some e' =>
            rw [get_engine] at h2
            rw [show lookupEngine ((cacheKey k1, mkEngine st envKey k1) :: st.cache)
                  (cacheKey k2) = some e' by
                rw [lookupEngine, if_neg hk, hl2]] at h2
            simp at h2
            obtain ⟨rfl, rfl⟩ := h2
            refine ⟨fun h => absurd h hk, fun _ heq => ?_⟩
            have m2 := lookupEngine_mem hl2
            have hbound : e'.eid < st.next := hlt _ m2
            have heid : st.next = e'.eid := congrArg Engine.eid heq
            omega
        | none =>
            rw [get_engine] at h2
            rw [show lookupEngine ((cacheKey k1, mkEngine st envKey k1) :: st.cache)
                  (cacheKey k2) = none by
                rw [lookupEngine, if_neg hk, hl2]] at h2
            simp at h2
            obtain ⟨rfl, rfl⟩ := h2
            refine ⟨fun h => absurd h hk, fun _ heq => ?_⟩
            have heid : st.next = st.next + 1 := congrArg Engine.eid heq
            omega

/-- Witness for C1: from the empty registry, the keys `"a"` and `"b"` (with
distinct normalized cache keys) produce two distinct engine instances. -/
theorem get_engine_cache_correct_witness :
    (get_engine none initialEngineState (some "a") true).2
      = .ok ⟨0, some "a"⟩ ∧
    Engine.mk 0 (some "a") ≠ Engine.mk 1 (some "b") := by
  refine ⟨rfl, ?_⟩
  have h := get_engine_cache_correct none (some "a") (some "b")
      initialEngineState _ _ _ _ initialEngineState_WF rfl rfl
  exact h.2 (by decide)

/-- Characterization of the join/filter condition. -/
theorem matchesBase_iff {c : ColumnInfo} {t : TableInfo} :
    matchesBase c t = true ↔ tblKey t = colKey c ∧ t.table_type = "BASE TABLE" := by
  simp only [matchesBase, Bool.and_eq_true, decide_eq_true_eq, tblKey, colKey,
    Prod.mk.injEq]
  constructor
  · rintro ⟨⟨h1, h2⟩, h3⟩
    exact ⟨⟨h2.symm, h1.symm⟩, h3⟩
  · rintro ⟨⟨h1, h2⟩, h3⟩
    exact ⟨⟨h2.symm, h1.symm⟩, h3⟩

/-- Membership in the subquery's rows: a column row survives the join iff it
is a catalog row of a non-system schema whose table is a base table. -/
theorem mem_subqueryRows {tables : List TableInfo} {cols : List ColumnInfo}
    {c : ColumnInfo} :
    c ∈ subqueryRows tables cols ↔
      c ∈ cols ∧ isSystemSchema c.table_schema = false ∧
        ∃ t ∈ tables, matchesBase c t = true := by
  simp only [subqueryRows, List.mem_flatMap]
  constructor
  · rintro ⟨c', hc', hmem⟩
    cases hs : isSystemSchema c'.table_schema with
    | true => simp [hs] at hmem
    | false =>
        simp only [hs, if_false, Bool.false_eq_true, List.mem_map,
          List.mem_filter] at hmem
        obtain ⟨t, ⟨ht, hm⟩, rfl⟩ := hmem
        exact ⟨hc', hs, t, ht, hm⟩
  · rintro ⟨hc, hs, t, ht, hm⟩
    refine ⟨c, hc, ?_⟩
    simp only [hs, if_false, Bool.false_eq_true, List.mem_map, List.mem_filter]
    exact ⟨t, ⟨ht, hm⟩, trivial⟩

/-- Membership in the group keys: a (schema, table) pair gets a synthesized
statement iff it names a base table outside the system schemas that has at
least one catalog column row. -/
theorem mem_ddlKeys_iff {tables : List TableInfo} {cols : List ColumnInfo}
    (k : String × String) :
    k ∈ ddlKeys tables cols ↔
      (∃ t ∈ tables, tblKey t = k ∧ t.table_type = "BASE TABLE") ∧
        isSystemSchema k.1 = false ∧ ∃ c ∈ cols, colKey c = k := by
  simp only [ddlKeys, List.mem_dedup, List.mem_map]
  constructor
  · rintro ⟨c, hc, rfl⟩
    rw [mem_subqueryRows] at hc
    obtain ⟨hcc, hs, t, ht, hm⟩ := hc
    rw [matchesBase_iff] at hm
    exact ⟨⟨t, ht, hm.1, hm.2⟩, hs, c, hcc, rfl⟩
  · rintro ⟨⟨t, ht, htk, htb⟩, hs, c, hc, hck⟩
    refine ⟨c, ?_, hck⟩
    rw [mem_subqueryRows]
    have hsch : c.table_schema = k.1 := congrArg Prod.fst hck
    refine ⟨hc, by rw [hsch]; exact hs, t, ht, ?_⟩
    rw [matchesBase_iff]
    exact ⟨htk.trans hck.symm, htb⟩

/-- Elements of an ordered insertion. -/
theorem mem_insertCol {c a : ColumnInfo} {l : List ColumnInfo} :
    a ∈ insertCol c l ↔ a = c ∨ a ∈ l := by
  induction l with
  | nil => simp [insertCol]
  | cons d ds ih =>
      by_cases h : c.ordinal_position ≤ d.ordinal_position
      · simp [insertCol, h]
      · simp only [insertCol, if_neg h, List.mem_cons, ih]
        tauto

/-- Ordered insertion is a permutation of consing. -/
theorem perm_insertCol (c : ColumnInfo) (l : List ColumnInfo) :
    List.Perm (insertCol c l) (c :: l) := by
  induction l with
  | nil => exact List.Perm.refl _
  | cons d ds ih =>
      by_cases h : c.ordinal_position ≤ d.ordinal_position
      · rw [insertCol, if_pos h]
      · rw [insertCol, if_neg h]
        exact List.Perm.trans (ih.cons d) (List.Perm.swap c d ds)

/-- The sort is a permutation of its input: aggregation loses no column row. -/
theorem perm_sortCols (l : List ColumnInfo) : List.Perm (sortCols l) l := by
  induction l with
  | nil => exact List.Perm.refl _
  | cons c cs ih =>
      exact List.Perm.trans (perm_insertCol c (sortCols cs)) (ih.cons c)

/-- Ordered insertion preserves sortedness by ordinal position. -/
theorem sorted_insertCol {c : ColumnInfo} {l : List ColumnInfo}
    (h : List.Sorted ordinalLe l) : List.Sorted ordinalLe (insertCol c l) := by
  induction l with
  | nil => simp [insertCol, List.sorted_singleton]
  | cons d ds ih =>
      rw [List.sorted_cons] at h
      obtain ⟨hd, hds⟩ := h
      by_cases hcd : c.ordinal_position ≤ d.ordinal_position
      · rw [insertCol, if_pos hcd, List.sorted_cons]
        refine ⟨?_, ?_⟩
        · intro b hb
          rcases List.mem_cons.mp hb with rfl | hb
          · exact hcd
          · exact le_trans hcd (hd b hb)
        · rw [List.sorted_cons]
          exact ⟨hd, hds⟩
      · rw [insertCol, if_neg hcd, List.sorted_cons]
        refine ⟨?_, ih hds⟩
        intro b hb
        rcases mem_insertCol.mp hb with rfl | hb
        · exact le_of_not_le hcd
        · exact hd b hb

/-- The sort produces a list sorted by ordinal position. -/
theorem sorted_sortCols (l : List ColumnInfo) :
    List.Sorted ordinalLe (sortCols l) := by
  induction l with
  | nil => exact List.sorted_nil
  | cons c cs ih => exact sorted_insertCol ih

/-- Unfolding of the subquery over one more catalog column row. -/
theorem subqueryRows_cons (tables : List TableInfo) (c : ColumnInfo)
    (cs : List ColumnInfo) :
    subqueryRows tables (c :: cs)
      = (if isSystemSchema c.table_schema then []
          else (tables.filter (matchesBase c)).map fun _ => c)
        ++ subqueryRows tables cs := by
  simp [subqueryRows]

/-- With pairwise-distinct table keys, the rows matching one base table are
that single table row: the inner join duplicates nothing. -/
theorem filter_matchesBase_eq {tables : List TableInfo} {c : ColumnInfo}
    {t0 : TableInfo}
    (hnd : (tables.map tblKey).Nodup)
    (ht0 : t0 ∈ tables) (hk : tblKey t0 = colKey c)
    (hb : t0.table_type = "BASE TABLE") :
    tables.filter (matchesBase c) = [t0] := by
  induction tables with
  | nil => cases ht0
  | cons t ts ih =>
      rw [List.map_cons, List.nodup_cons] at hnd
      obtain ⟨hnotin, hnd'⟩ := hnd
      rcases List.mem_cons.mp ht0 with rfl | hmem
      · rw [List.filter_cons_of_pos (by rw [matchesBase_iff]; exact ⟨hk, hb⟩)]
        have : ts.filter (matchesBase c) = [] := by
          rw [List.filter_eq_nil_iff]
          intro s hs hms
          rw [matchesBase_iff] at hms
          exact hnotin (hms.1.trans hk.symm ▸ List.mem_map_of_mem tblKey hs)
        rw [this]
      · have hneq : ¬ matchesBase c t = true := by
          intro hm
          rw [matchesBase_iff] at hm
          have : tblKey t = tblKey t0 := hm.1.trans hk.symm
          exact hnotin (this ▸ List.mem_map_of_mem tblKey hmem)
        rw [List.filter_cons_of_neg (by simpa using hneq)]
        exact ih hnd' hmem

/-- With pairwise-distinct table keys, restricting the joined rows to one
base-table key recovers exactly the catalog's column rows for that key. -/
theorem subqueryRows_filter_key {tables : List TableInfo} {cols : List ColumnInfo}
    {k : String × String}
    (hnd : (tables.map tblKey).Nodup)
    (hsys : isSystemSchema k.1 = false)
    {t0 : TableInfo} (ht0 : t0 ∈ tables) (hk : tblKey t0 = k)
    (hb : t0.table_type = "BASE TABLE") :
    (subqueryRows tables cols).filter (fun c => decide (colKey c = k))
      = cols.filter (fun c => decide (colKey c = k)) := by
  induction cols with
  | nil => rfl
  | cons c cs ih =>
      rw [subqueryRows_cons, List.filter_append, ih]
      by_cases hck : colKey c = k
      · have hsch : c.table_schema = k.1 := congrArg Prod.fst hck
        have hcs : isSystemSchema c.table_schema = false := by
          rw [hsch]
          exact hsys
        rw [if_neg (by simp [hcs])]
        rw [filter_matchesBase_eq hnd ht0 (hk.trans hck.symm) hb]
        simp [hck]
      · have hmapnil : ∀ (l : List TableInfo),
            (l.map fun _ => c).filter (fun x => decide (colKey x = k)) = [] := by
          intro l
          rw [List.filter_eq_nil_iff]
          intro a ha
          rcases List.mem_map.mp ha with ⟨_, _, rfl⟩
          simp [hck]
        cases hs : isSystemSchema c.table_schema with
        | true => simp [hs, hck]
        | false => simp [hs, hck, hmapnil]

/-- C7 counterexample: a base table with no catalog column rows (a
zero-column table, legal in PostgreSQL) joins to nothing, so `schema_ddl`
synthesizes no statement at all for it, refuting "exactly one statement per
base table". -/
theorem get_schema_ddl_zero_column_cex :
    get_schema_ddl [⟨"public", "t0", "BASE TABLE"⟩] [] = [] ∧
    (TableInfo.mk "public" "t0" "BASE TABLE").table_type = "BASE TABLE" ∧
    isSystemSchema (TableInfo.mk "public" "t0" "BASE TABLE").table_schema
      = false := by
  refine ⟨rfl, rfl, by decide⟩

/-- C7 (amended): assuming the catalog lists each (schema, table) at most
once (as `information_schema.tables` does), `schema_ddl` produces exactly
one `CREATE TABLE` statement per non-system base table having at least one
column; within each statement the table's column rows appear exactly once
each, ordered by their declared ordinal position, and a column fragment
carries the `NOT NULL` annotation exactly when the column is declared
non-nullable. -/
theorem get_schema_ddl_correct (tables : List TableInfo) (cols : List ColumnInfo)
    (hnd : (tables.map tblKey).Nodup) :
    (∀ k, k ∈ ddlKeys tables cols ↔
        (∃ t ∈ tables, tblKey t = k ∧ t.table_type = "BASE TABLE") ∧
          isSystemSchema k.1 = false ∧ ∃ c ∈ cols, colKey c = k) ∧
    (ddlKeys tables cols).Nodup ∧
    get_schema_ddl tables cols = (ddlKeys tables cols).map (tableDDL tables cols) ∧
    (∀ k ∈ ddlKeys tables cols,
        List.Sorted ordinalLe (groupCols tables cols k) ∧
        List.Perm (groupCols tables cols k)
          (cols.filter fun c => decide (colKey c = k)) ∧
        tableDDL tables cols k
          = "CREATE TABLE " ++ k.1 ++ "." ++ k.2 ++ " (" ++
              String.intercalate ", " ((groupCols tables cols k).map renderCol)
              ++ ");") ∧
    (∀ c : ColumnInfo,
        (c.is_nullable = "NO" →
          renderCol c = c.column_name ++ " " ++ c.data_type ++ " NOT NULL") ∧
        (c.is_nullable ≠ "NO" →
          renderCol c = c.column_name ++ " " ++ c.data_type)) := by
  refine ⟨fun k => mem_ddlKeys_iff k, List.nodup_dedup _, rfl, ?_, ?_⟩
  · intro k hkmem
    obtain ⟨⟨t0, ht0, htk, htb⟩, hsys, -⟩ := (mem_ddlKeys_iff k).mp hkmem
    refine ⟨sorted_sortCols _, ?_, rfl⟩
    rw [groupCols, subqueryRows_filter_key hnd hsys ht0 htk htb]
    exact perm_sortCols _
  · intro c
    constructor
    · intro h
      simp [renderCol, h]
    · intro h
      simp [renderCol, h]

/-- Witness for C7: the spec's example table `t(a int not null, b text)`
receives exactly one statement, with `NOT NULL` on `a` but not on `b`. -/
theorem get_schema_ddl_correct_witness :
    ("public", "t") ∈ ddlKeys [⟨"public", "t", "BASE TABLE"⟩]
        [⟨"public", "t", "a", "integer", "NO", 1⟩,
          ⟨"public", "t", "b", "text", "YES", 2⟩] ∧
    get_schema_ddl [⟨"public", "t", "BASE TABLE"⟩]
        [⟨"public", "t", "a", "integer", "NO", 1⟩,
          ⟨"public", "t", "b", "text", "YES", 2⟩]
      = ["CREATE TABLE public.t (a integer NOT NULL, b text);"] := by
  constructor
  · exact ((get_schema_ddl_correct _ _ (by decide)).1 _).mpr (by decide)
  · rfl

end TextToSqlModel
